import Mathlib

/-!
Verification of the billbot counter-aggregation engine.

This file gives a shallow embedding of the aggregation, reconciliation and
webhook-ingestion logic of the repository (src/index.js, the Google-Sheets
revision; src/unnamed/part_000 is the earlier revision of the same file) and
proves the behavioural properties claimed by the specification.

Modelling conventions:
- Instants are milliseconds since the Unix epoch, as `Int` (JS `Date.getTime`).
- The civil-calendar conversion performed in the source through
  `Intl.DateTimeFormat` with timezone America/New_York is modelled by the
  IANA rules for that zone in the post-2007 era: standard offset UTC-5,
  daylight offset UTC-4, daylight time from the second Sunday of March
  02:00 local standard time to the first Sunday of November 02:00 local
  daylight time.  The civil-date arithmetic is the standard
  days-from-civil / civil-from-days algorithm.
- JS objects used as counter tables are modelled as insertion-ordered
  association lists with unique keys: `Object.entries` order for string
  keys is insertion order, lookup reads the first matching key, and
  `obj[k] = (obj[k] || 0) + 1` updates in place or appends a fresh key.
- `new Date(ts)` applied to a log row is modelled by a parser for the exact
  ISO-8601 shape the system itself writes (`Date.prototype.toISOString`,
  "YYYY-MM-DDTHH:MM:SS.mmmZ"); any other string parses to `none` (NaN).
- The sheet append in `logBillEvent` and its success or failure is modelled
  by an explicit boolean outcome; the modelled log row keeps the group id
  and user (the timestamp column, the wall clock at append time, is not
  needed by any property below).
- `AggregateState.lastReset` is informational only (never read by logic) and
  is omitted from the model.
-/

namespace BillBot

/-- Days since 1970-01-01 of a civil date, standard civil-calendar algorithm.
Models `Date.UTC(y, m - 1, d) / 86400000` for the civil fields produced by
`getNyYMD`. -/
def daysFromCivil (y m d : Int) : Int :=
  let y2 := if m ≤ 2 then y - 1 else y
  let era := y2 / 400
  let yoe := y2 - era * 400
  let mp := (m + 9) % 12
  let doy := (153 * mp + 2) / 5 + d - 1
  let doe := yoe * 365 + yoe / 4 - yoe / 100 + doy
  era * 146097 + doe - 719468

/-- Civil date (year, month, day) of a day ordinal; inverse direction of
`daysFromCivil`. -/
def civilFromDays (z : Int) : Int × Int × Int :=
  let z2 := z + 719468
  let era := z2 / 146097
  let doe := z2 - era * 146097
  let yoe := (doe - doe / 1460 + doe / 36524 - doe / 146096) / 365
  let y := yoe + era * 400
  let doy := doe - (365 * yoe + yoe / 4 - yoe / 100)
  let mp := (5 * doy + 2) / 153
  let d := doy - (153 * mp + 2) / 5 + 1
  let m := mp + (if mp < 10 then 3 else -9)
  (y + (if m ≤ 2 then 1 else 0), m, d)

/-- Weekday index of a day ordinal, Sunday = 0 (1970-01-01 was a Thursday). -/
def dayOrdWeekday (z : Int) : Int := (z + 4) % 7

/-- Civil day of month of the second Sunday of March of a year. -/
def secondSundayOfMarch (y : Int) : Int :=
  8 + ((7 - dayOrdWeekday (daysFromCivil y 3 8)) % 7)

/-- Civil day of month of the first Sunday of November of a year. -/
def firstSundayOfNovember (y : Int) : Int :=
  1 + ((7 - dayOrdWeekday (daysFromCivil y 11 1)) % 7)

/-- UTC calendar year of an instant. -/
def utcYear (t : Int) : Int := (civilFromDays (t / 86400000)).1

/-- Offset of America/New_York from UTC, in milliseconds, at a given instant
(post-2007 IANA rules; see the header comment). -/
def nyOffsetMs (t : Int) : Int :=
  let y := utcYear t
  let dstStart := daysFromCivil y 3 (secondSundayOfMarch y) * 86400000 + 7 * 3600000
  let dstEnd := daysFromCivil y 11 (firstSundayOfNovember y) * 86400000 + 6 * 3600000
  if dstStart ≤ t ∧ t < dstEnd then -(4 * 3600000) else -(5 * 3600000)

/-- New York civil date of an instant; models the formatted output of
`Intl.DateTimeFormat` en-CA date fields used by `getNyYMD`. -/
def nyCivil (t : Int) : Int × Int × Int := civilFromDays ((t + nyOffsetMs t) / 86400000)

/-- New York civil (year, month) of an instant; models the `ym` field of
`getNyYMD` (the "YYYY-MM" prefix, as an equatable pair). -/
def nyYM (t : Int) : Int × Int := ((nyCivil t).1, (nyCivil t).2.1)

/-- Models `nyOrdinalDay`: `Math.floor(Date.UTC(y, m - 1, d) / 86400000)` of
the New York civil date of the instant. -/
def nyOrdinalDay (t : Int) : Int :=
  let c := nyCivil t
  daysFromCivil c.1 c.2.1 c.2.2

/-- Models `getNyWeekdayIndex`: the weekday (Sun = 0 .. Sat = 6) of the New
York civil date of the instant, as given by the Intl weekday name. -/
def getNyWeekdayIndex (t : Int) : Int := dayOrdWeekday (nyOrdinalDay t)

/-- Whether a year is a leap year (Gregorian rule). -/
def isLeap (y : Int) : Bool := (y % 4 = 0 ∧ y % 100 ≠ 0) ∨ y % 400 = 0

/-- Number of days in a civil month. -/
def daysInMonth (y m : Int) : Int :=
  if m = 2 then (if isLeap y then 29 else 28)
  else if m = 4 ∨ m = 6 ∨ m = 9 ∨ m = 11 then 30
  else 31

/-- Numeric value of a decimal digit character. -/
def digitVal (c : Char) : Int := Int.ofNat (c.toNat - 48)

/-- Models `new Date(ts).getTime()` on a log-row timestamp string, restricted
to the ISO shape the system itself writes ("YYYY-MM-DDTHH:MM:SS.mmmZ");
`none` models NaN. -/
def parseTs (s : String) : Option Int :=
  match s.data with
  | [y1, y2, y3, y4, '-', a1, a2, '-', b1, b2, 'T',
     h1, h2, ':', i1, i2, ':', c1, c2, '.', f1, f2, f3, 'Z'] =>
    if ([y1, y2, y3, y4, a1, a2, b1, b2, h1, h2, i1, i2, c1, c2, f1, f2, f3].all
        Char.isDigit) then
      let y := digitVal y1 * 1000 + digitVal y2 * 100 + digitVal y3 * 10 + digitVal y4
      let mo := digitVal a1 * 10 + digitVal a2
      let d := digitVal b1 * 10 + digitVal b2
      let h := digitVal h1 * 10 + digitVal h2
      let mi := digitVal i1 * 10 + digitVal i2
      let sec := digitVal c1 * 10 + digitVal c2
      let ms := digitVal f1 * 100 + digitVal f2 * 10 + digitVal f3
      if 1 ≤ mo ∧ mo ≤ 12 ∧ 1 ≤ d ∧ d ≤ daysInMonth y mo ∧ h < 24 ∧ mi < 60 ∧ sec < 60 then
        some (daysFromCivil y mo d * 86400000 + h * 3600000 + mi * 60000 + sec * 1000 + ms)
      else none
    else none
  | _ => none

/-- One raw row of the "events" sheet as seen by the rebuild: the `timestamp`
and `user` columns, `none` when the cell is absent. -/
structure Row where
  timestamp : Option String
  user : Option String
deriving DecidableEq, Repr

/-- Validity filter of the rebuild loop: `if (!ts || !user) continue` (absent
or empty cells are falsy) followed by `if (Number.isNaN(dt.getTime())) continue`.
Returns the actor and the parsed instant of a valid row. -/
def parseRow (r : Row) : Option (String × Int) :=
  match r.timestamp, r.user with
  | some ts, some u =>
    if ts = "" ∨ u = "" then none
    else match parseTs ts with
      | some t => some (u, t)
      | none => none
  | _, _ => none

/-- One counter table: user to count, in key-insertion order (JS object). -/
abbrev CounterTable := List (String × Nat)

/-- Count of a user in a table; absent key reads as 0. -/
def lookupCount : CounterTable → String → Nat
  | [], _ => 0
  | (k, n) :: t, u => if k = u then n else lookupCount t u

/-- Models `tbl[user] = (tbl[user] || 0) + 1`: update the existing key in
place, or append a fresh key with count 1. -/
def bump : CounterTable → String → CounterTable
  | [], u => [(u, 1)]
  | (k, n) :: t, u => if k = u then (k, n + 1) :: t else (k, n) :: bump t u

/-- The four counter tables of `data` (the `AggregateState` of the spec;
`lastReset` is informational only and omitted). -/
structure Tables where
  daily : CounterTable
  weekly : CounterTable
  monthly : CounterTable
  allTime : CounterTable
deriving DecidableEq, Repr

/-- The empty aggregate (the fresh tables of a rebuild, and the initial
in-memory state when no data.json exists). -/
def emptyTables : Tables := ⟨[], [], [], []⟩

/-- The three bucket keys the rebuild computes once from `now`:
`nowOrd`, `nowYM` and `weekStartOrd = nowOrd - getNyWeekdayIndex(now)`. -/
structure NowKeys where
  nowOrd : Int
  nowYM : Int × Int
  weekStartOrd : Int
deriving DecidableEq, Repr

/-- The bucket keys of a given `now`, exactly as `rebuildCountsFromSheet`
computes them at its start. -/
def nowKeys (now : Int) : NowKeys :=
  { nowOrd := nyOrdinalDay now
    nowYM := nyYM now
    weekStartOrd := nyOrdinalDay now - getNyWeekdayIndex now }

/-- Effect of one sheet row on the four fresh tables inside the rebuild loop:
skip invalid rows; otherwise always bump allTime, bump monthly iff the civil
year-month equals nowYM, bump weekly iff the day ordinal is at least
weekStartOrd, bump daily iff the day ordinal equals nowOrd. -/
def countRow (nk : NowKeys) (t : Tables) (r : Row) : Tables :=
  match parseRow r with
  | none => t
  | some (u, ts) =>
    let ord := nyOrdinalDay ts
    let ym := nyYM ts
    { daily := if ord = nk.nowOrd then bump t.daily u else t.daily
      weekly := if nk.weekStartOrd ≤ ord then bump t.weekly u else t.weekly
      monthly := if ym = nk.nowYM then bump t.monthly u else t.monthly
      allTime := bump t.allTime u }

/-- Models `rebuildCountsFromSheet`: fold the whole sheet through the counting
loop, starting from four fresh empty tables, with the bucket keys fixed once
from `now`. -/
def rebuildCountsFromSheet (rows : List Row) (now : Int) : Tables :=
  rows.foldl (countRow (nowKeys now)) emptyTables

/-- Models the tail of `rebuildCountsFromSheet`: `data.daily = daily; ...;
data.allTime = allTime` — the four freshly built tables are assigned over the
previous aggregate state. -/
def rebuildInto (rows : List Row) (now : Int) (s : Tables) : Tables :=
  let fresh := rebuildCountsFromSheet rows now
  { s with daily := fresh.daily, weekly := fresh.weekly,
           monthly := fresh.monthly, allTime := fresh.allTime }

/-- Models `incrementCount(user)`: bump the user in all four tables. -/
def incrementCount (u : String) (s : Tables) : Tables :=
  { daily := bump s.daily u
    weekly := bump s.weekly u
    monthly := bump s.monthly u
    allTime := bump s.allTime u }

/-- Stable insertion of an entry into a count-descending list: walk past
strictly greater counts, insert before the first entry whose count is at most
the new count. -/
def insertEntry (p : String × Nat) : List (String × Nat) → List (String × Nat)
  | [] => [p]
  | q :: t => if p.2 < q.2 then q :: insertEntry p t else p :: q :: t

/-- Models `entries.sort((a, b) => b[1] - a[1])`: the stable (ES2019)
descending sort by count of the insertion-ordered entry list.  Any stable
sort by the same key order computes the same list; this one is insertion
sort. -/
def sortEntries : List (String × Nat) → List (String × Nat)
  | [] => []
  | p :: t => insertEntry p (sortEntries t)

/-- The `topN(kind, n)` operation of the spec: the code realises it at
n = 3 as `getTopThree` (`.sort(...).slice(0, 3)` generalised to `n`). -/
def topN (l : CounterTable) (n : Nat) : List (String × Nat) :=
  (sortEntries l).take n

/-- Models `getTopThree`: `Object.entries(obj || {}).sort((a, b) => b[1] - a[1]).slice(0, 3)`. -/
def getTopThree (l : CounterTable) : List (String × Nat) := topN l 3

/-- The four bucket kinds. -/
inductive BucketKind where
  | daily
  | weekly
  | monthly
  | allTime
deriving DecidableEq, Repr

/-- The table of a given kind inside the aggregate. -/
def tableOf : BucketKind → Tables → CounterTable
  | .daily, s => s.daily
  | .weekly, s => s.weekly
  | .monthly, s => s.monthly
  | .allTime, s => s.allTime

/-- The `resetBucket(kind)` operation.  The daily branch models the
`data.daily = {}` reset of `post8pmLeaderboard`, the weekly and monthly
branches model the Sunday-midnight and first-of-month cron handlers
(`data.weekly = {}`, `data.monthly = {}`).  Modelled from the spec: the
allTime branch — no reset of the all-time table exists in the source; the
spec describes `resetBucket(kind)` uniformly as clearing exactly one table. -/
def resetBucket : BucketKind → Tables → Tables
  | .daily, s => { s with daily := [] }
  | .weekly, s => { s with weekly := [] }
  | .monthly, s => { s with monthly := [] }
  | .allTime, s => { s with allTime := [] }

/-- Inbound webhook message fields read by the handler. -/
structure Msg where
  sender_type : String
  text : Option String
  name : String
  group_id : String
deriving DecidableEq, Repr

/-- Remove leading and trailing whitespace from a character list; models
`String.prototype.trim` on the character level. -/
def trimChars (l : List Char) : List Char :=
  ((l.dropWhile Char.isWhitespace).reverse.dropWhile Char.isWhitespace).reverse

/-- Models `(req.body.text || "").trim().toLowerCase()` (an absent text field
is the empty string): trim surrounding whitespace, lowercase every
character. -/
def normalizeText (t : Option String) : String :=
  String.mk ((trimChars (t.getD "").data).map Char.toLower)

/-- The server state touched by the ingestion path: the in-memory tables and
the event log (sheet rows, as (group id, user)). -/
structure WebState where
  tables : Tables
  log : List (String × String)
deriving DecidableEq, Repr

/-- The in-memory state and empty log at process start with no data.json
(DEFAULT_DATA), before the startup rebuild has run. -/
def initialState : WebState := ⟨emptyTables, []⟩

/-- Models `logBillEvent`: when the sheet is configured, attempt
`sheetEvents.addRow`; on success the row is appended, on failure the error is
caught (logged to the console) and the log is left unchanged — nothing is
queued or retried. -/
def logBillEvent (configured appendOk : Bool) (log : List (String × String))
    (groupId user : String) : List (String × String) :=
  if configured then (if appendOk then log ++ [(groupId, user)] else log) else log

/-- Models the webhook handler `app.post("/")`: bot senders are ignored; the
normalised text is matched against "!test8" (posts a board, no counter
change) and "bill" (increment all four tables, then append to the sheet);
every path acknowledges with HTTP 200.  `configured` is whether `sheetEvents`
is set, `appendOk` the outcome of the attempted append. -/
def handleWebhook (configured appendOk : Bool) (m : Msg) (st : WebState) :
    WebState × Nat :=
  if m.sender_type = "bot" then (st, 200)
  else
    let normalized := normalizeText m.text
    if normalized = "!test8" then (st, 200)
    else if normalized = "bill" then
      ({ tables := incrementCount m.name st.tables
         log := logBillEvent configured appendOk st.log m.group_id m.name }, 200)
    else (st, 200)

end BillBot

namespace BillBot

theorem lookupCount_bump (l : CounterTable) (v u : String) :
    lookupCount (bump l v) u = lookupCount l u + (if v = u then 1 else 0) := by
  induction l with
  | nil => by_cases h : v = u <;> simp [bump, lookupCount, h]
  | cons p t ih =>
    obtain ⟨k, n⟩ := p
    by_cases hk : k = v
    · subst hk
      by_cases hu : k = u <;> simp [bump, lookupCount, hu]
    · by_cases hu : k = u
      · have hv : ¬ v = u := fun hvu => hk (hu.trans hvu.symm)
        have huv : ¬ u = v := fun h2 => hk (hu.trans h2)
        simp [bump, lookupCount, hk, hu, hv, huv]
      · simp [bump, lookupCount, hk, hu, ih]

theorem rebuildInto_eq (rows : List Row) (now : Int) (s : Tables) :
    rebuildInto rows now s = rebuildCountsFromSheet rows now := rfl

/-- Claim C1: rebuild correctness.  For every log of events and a `now` fixed
once at rebuild start, the four tables assigned by `rebuildCountsFromSheet`
wholly replace the previous aggregate state, and each valid event (one with
an actor and a parseable timestamp) bumps AllTime for its actor
unconditionally, Monthly iff its New York civil year-month equals the
year-month of now, Weekly iff its civil day ordinal is at least the
week-start ordinal, and Daily iff its civil day ordinal equals the day
ordinal of now. -/
theorem rebuild_correct (now : Int) (r : Row) (u : String) (ts : Int)
    (h : parseRow r = some (u, ts)) :
    (∀ (rows : List Row) (s : Tables),
      rebuildInto rows now s = rebuildCountsFromSheet rows now) ∧
    ∀ t : Tables,
      lookupCount (countRow (nowKeys now) t r).allTime u =
        lookupCount t.allTime u + 1 ∧
      lookupCount (countRow (nowKeys now) t r).monthly u =
        lookupCount t.monthly u +
          (if nyYM ts = (nowKeys now).nowYM then 1 else 0) ∧
      lookupCount (countRow (nowKeys now) t r).weekly u =
        lookupCount t.weekly u +
          (if (nowKeys now).weekStartOrd ≤ nyOrdinalDay ts then 1 else 0) ∧
      lookupCount (countRow (nowKeys now) t r).daily u =
        lookupCount t.daily u +
          (if nyOrdinalDay ts = (nowKeys now).nowOrd then 1 else 0) := by
  constructor
  · intro rows s
    exact rebuildInto_eq rows now s
  · intro t
    have hc : countRow (nowKeys now) t r =
        { daily := if nyOrdinalDay ts = (nowKeys now).nowOrd then
                     bump t.daily u else t.daily
          weekly := if (nowKeys now).weekStartOrd ≤ nyOrdinalDay ts then
                      bump t.weekly u else t.weekly
          monthly := if nyYM ts = (nowKeys now).nowYM then
                       bump t.monthly u else t.monthly
          allTime := bump t.allTime u } := by
      simp [countRow, h]
    rw [hc]
    refine ⟨by simp [lookupCount_bump], ?_, ?_, ?_⟩ <;>
      · dsimp only
        split <;> simp [lookupCount_bump]

theorem rebuild_correct_witness :
    lookupCount (countRow (nowKeys 1714564800000) emptyTables
        ⟨some "2024-05-01T12:00:00.000Z", some "A"⟩).allTime "A" =
      lookupCount emptyTables.allTime "A" + 1 :=
  ((rebuild_correct 1714564800000 ⟨some "2024-05-01T12:00:00.000Z", some "A"⟩
      "A" 1714564800000 (by decide)).2 emptyTables).1

/-- Claim C4: rebuild idempotence.  With a fixed, unchanging log and the same
now, running the rebuild twice in a row yields the identical aggregate state
both times: the second run changes nothing relative to the first. -/
theorem rebuild_idempotent (rows : List Row) (now : Int) (s : Tables) :
    rebuildInto rows now (rebuildInto rows now s) = rebuildInto rows now s := by
  simp [rebuildInto_eq]

end BillBot

namespace BillBot

theorem countRow_invalid (nk : NowKeys) (t : Tables) (r : Row)
    (h : parseRow r = none) : countRow nk t r = t := by
  simp [countRow, h]

theorem foldl_countRow_filter (nk : NowKeys) (rows : List Row) :
    ∀ t : Tables,
      rows.foldl (countRow nk) t =
        (rows.filter (fun r => (parseRow r).isSome)).foldl (countRow nk) t := by
  induction rows with
  | nil => intro t; rfl
  | cons r rest ih =>
    intro t
    cases hp : parseRow r with
    | none =>
      simp [List.foldl_cons, List.filter_cons, hp, countRow_invalid nk t r hp, ih]
    | some p =>
      simp [List.foldl_cons, List.filter_cons, hp, ih]

/-- Claim C8: malformed-row tolerance.  A log row missing the actor or the
timestamp cell, or carrying an unparseable timestamp, is skipped: it leaves
all four tables untouched and does not abort the fold, and the rebuilt state
equals the state computed from the valid rows alone, wherever and however
many malformed rows the log contains. -/
theorem rebuild_skips_malformed (r : Row) (h : parseRow r = none) :
    (∀ (nk : NowKeys) (t : Tables), countRow nk t r = t) ∧
    ∀ (rows : List Row) (now : Int),
      rebuildCountsFromSheet rows now =
        rebuildCountsFromSheet (rows.filter (fun r => (parseRow r).isSome)) now := by
  refine ⟨fun nk t => countRow_invalid nk t r h, fun rows now => ?_⟩
  exact foldl_countRow_filter (nowKeys now) rows emptyTables

theorem rebuild_skips_malformed_witness :
    countRow (nowKeys 1718208000000) emptyTables ⟨some "garbage", some "A"⟩ =
      emptyTables :=
  (rebuild_skips_malformed ⟨some "garbage", some "A"⟩ (by decide)).1
    (nowKeys 1718208000000) emptyTables

theorem weekStartOrd_le_nowOrd (now : Int) :
    (nowKeys now).weekStartOrd ≤ (nowKeys now).nowOrd := by
  simp only [nowKeys, getNyWeekdayIndex, dayOrdWeekday]
  omega

theorem countRow_preserves_containment (now : Int) (t : Tables) (r : Row)
    (u : String)
    (h1 : lookupCount t.daily u ≤ lookupCount t.weekly u)
    (h2 : lookupCount t.weekly u ≤ lookupCount t.allTime u)
    (h3 : lookupCount t.monthly u ≤ lookupCount t.allTime u) :
    lookupCount (countRow (nowKeys now) t r).daily u ≤
      lookupCount (countRow (nowKeys now) t r).weekly u ∧
    lookupCount (countRow (nowKeys now) t r).weekly u ≤
      lookupCount (countRow (nowKeys now) t r).allTime u ∧
    lookupCount (countRow (nowKeys now) t r).monthly u ≤
      lookupCount (countRow (nowKeys now) t r).allTime u := by
  have hw := weekStartOrd_le_nowOrd now
  cases hp : parseRow r with
  | none => simpa [countRow_invalid _ _ _ hp] using ⟨h1, h2, h3⟩
  | some p =>
    obtain ⟨v, ts⟩ := p
    simp only [countRow, hp]
    by_cases cd : nyOrdinalDay ts = (nowKeys now).nowOrd <;>
      by_cases cw : (nowKeys now).weekStartOrd ≤ nyOrdinalDay ts <;>
        by_cases cm : nyYM ts = (nowKeys now).nowYM <;>
          by_cases hv : v = u <;>
            simp [cd, cw, cm, hv, hw, lookupCount_bump] <;>
              omega

/-- Claim C9: bucket containment.  Every aggregate state produced by a
rebuild satisfies, for every user, daily at most weekly, weekly at most
allTime, and monthly at most allTime (absent keys reading as 0): a day
ordinal equal to the ordinal of now is also at least the week-start ordinal
because the weekday index is non-negative, and every counted event is
counted in allTime. -/
theorem rebuild_containment (rows : List Row) (now : Int) (u : String) :
    lookupCount (rebuildCountsFromSheet rows now).daily u ≤
      lookupCount (rebuildCountsFromSheet rows now).weekly u ∧
    lookupCount (rebuildCountsFromSheet rows now).weekly u ≤
      lookupCount (rebuildCountsFromSheet rows now).allTime u ∧
    lookupCount (rebuildCountsFromSheet rows now).monthly u ≤
      lookupCount (rebuildCountsFromSheet rows now).allTime u := by
  have main : ∀ (l : List Row) (t : Tables),
      lookupCount t.daily u ≤ lookupCount t.weekly u →
      lookupCount t.weekly u ≤ lookupCount t.allTime u →
      lookupCount t.monthly u ≤ lookupCount t.allTime u →
      lookupCount (l.foldl (countRow (nowKeys now)) t).daily u ≤
        lookupCount (l.foldl (countRow (nowKeys now)) t).weekly u ∧
      lookupCount (l.foldl (countRow (nowKeys now)) t).weekly u ≤
        lookupCount (l.foldl (countRow (nowKeys now)) t).allTime u ∧
      lookupCount (l.foldl (countRow (nowKeys now)) t).monthly u ≤
        lookupCount (l.foldl (countRow (nowKeys now)) t).allTime u := by
    intro l
    induction l with
    | nil => exact fun t a b c => ⟨a, b, c⟩
    | cons r rest ih =>
      intro t a b c
      obtain ⟨a2, b2, c2⟩ := countRow_preserves_containment now t r u a b c
      exact ih _ a2 b2 c2
  exact main rows emptyTables (le_refl 0) (le_refl 0) (le_refl 0)

end BillBot

namespace BillBot

theorem mem_insertEntry {p q : String × Nat} {l : List (String × Nat)}
    (h : q ∈ insertEntry p l) : q = p ∨ q ∈ l := by
  induction l with
  | nil =>
    simp [insertEntry] at h
    exact Or.inl h
  | cons a t ih =>
    by_cases hc : p.2 < a.2
    · simp only [insertEntry, if_pos hc, List.mem_cons] at h
      rcases h with h | h
      · exact Or.inr (List.mem_cons.2 (Or.inl h))
      · rcases ih h with h2 | h2
        · exact Or.inl h2
        · exact Or.inr (List.mem_cons.2 (Or.inr h2))
    · simp only [insertEntry, if_neg hc, List.mem_cons] at h
      rcases h with h | h
      · exact Or.inl h
      · exact Or.inr (List.mem_cons.2 h)

theorem pairwise_insertEntry (p : String × Nat) (l : List (String × Nat))
    (h : l.Pairwise (fun a b => b.2 ≤ a.2)) :
    (insertEntry p l).Pairwise (fun a b => b.2 ≤ a.2) := by
  induction l with
  | nil => simp [insertEntry]
  | cons a t ih =>
    rcases List.pairwise_cons.1 h with ⟨ha, ht⟩
    by_cases hc : p.2 < a.2
    · simp only [insertEntry, if_pos hc]
      refine List.pairwise_cons.2 ⟨?_, ih ht⟩
      intro q hq
      rcases mem_insertEntry hq with h2 | h2
      · rw [h2]; exact le_of_lt hc
      · exact ha q h2
    · simp only [insertEntry, if_neg hc]
      refine List.pairwise_cons.2 ⟨?_, h⟩
      intro q hq
      rcases List.mem_cons.1 hq with h2 | h2
      · rw [h2]; omega
      · exact le_trans (ha q h2) (by omega)

theorem sortEntries_pairwise (l : List (String × Nat)) :
    (sortEntries l).Pairwise (fun a b => b.2 ≤ a.2) := by
  induction l with
  | nil => simp [sortEntries]
  | cons p t ih => exact pairwise_insertEntry p _ ih

theorem filter_insertEntry (p : String × Nat) (c : Nat)
    (l : List (String × Nat)) :
    (insertEntry p l).filter (fun q => q.2 = c) =
      if p.2 = c then p :: l.filter (fun q => q.2 = c)
      else l.filter (fun q => q.2 = c) := by
  induction l with
  | nil => by_cases hp : p.2 = c <;> simp [insertEntry, hp]
  | cons a t ih =>
    by_cases hc : p.2 < a.2
    · simp only [insertEntry, if_pos hc, List.filter_cons]
      by_cases hp : p.2 = c
      · have ha : ¬ (a.2 = c) := by omega
        simp [hp, ha, ih, List.filter_cons]
      · by_cases ha : a.2 = c <;> simp [hp, ha, ih, List.filter_cons]
    · simp only [insertEntry, if_neg hc, List.filter_cons]
      by_cases hp : p.2 = c <;> by_cases ha : a.2 = c <;>
        simp [hp, ha, List.filter_cons]

theorem sortEntries_filter (c : Nat) (l : List (String × Nat)) :
    (sortEntries l).filter (fun q => q.2 = c) =
      l.filter (fun q => q.2 = c) := by
  induction l with
  | nil => rfl
  | cons p t ih =>
    by_cases hp : p.2 = c <;>
      simp [sortEntries, filter_insertEntry, hp, ih, List.filter_cons]

/-- Claim C6: topN ordering.  For every counter table and every n, topN
returns at most n (user, count) pairs, sorted by count descending; the sort
is stable (for every count value, the entries carrying it appear exactly in
their first-encountered table order, stated through filter); the code
realises topN at n = 3 as getTopThree; an empty table yields the empty
sequence; and on the table A:5, B:5, C:3, D:1 with A inserted before B,
getTopThree returns A:5, B:5, C:3 with A before B. -/
theorem topN_ordering (l : CounterTable) (n : Nat) :
    (topN l n).length ≤ n ∧
    (topN l n).Pairwise (fun a b => b.2 ≤ a.2) ∧
    (∀ c : Nat, (sortEntries l).filter (fun q => q.2 = c) =
      l.filter (fun q => q.2 = c)) ∧
    getTopThree l = topN l 3 ∧
    topN ([] : CounterTable) n = [] ∧
    getTopThree [("A", 5), ("B", 5), ("C", 3), ("D", 1)] =
      [("A", 5), ("B", 5), ("C", 3)] := by
  refine ⟨?_, ?_, fun c => sortEntries_filter c l, rfl,
    by simp [topN, sortEntries], by decide⟩
  · simp [topN, List.length_take]
  · exact List.Pairwise.sublist (List.take_sublist n (sortEntries l))
      (sortEntries_pairwise l)

end BillBot

namespace BillBot

/-- Claim C5: weekly boundary.  For every instant, the week-start ordinal
computed by the rebuild equals the civil day ordinal minus the civil weekday
index (Sunday = 0); that week start is non-negative steps back, lands on a
Sunday, and is at most the day ordinal (the most recent Sunday at or before
the instant).  Consequently a rebuild whose now is Wednesday 2024-06-12
noon New York time counts an event stamped exactly Sunday 2024-06-09
00:00:00 New York time in Weekly, while the event one millisecond earlier
(civil Saturday) is excluded from Weekly though still counted in AllTime. -/
theorem weekly_boundary :
    (∀ t : Int, (nowKeys t).weekStartOrd = nyOrdinalDay t - getNyWeekdayIndex t) ∧
    (∀ t : Int, 0 ≤ getNyWeekdayIndex t ∧ getNyWeekdayIndex t < 7 ∧
      dayOrdWeekday ((nowKeys t).weekStartOrd) = 0 ∧
      (nowKeys t).weekStartOrd ≤ nyOrdinalDay t) ∧
    lookupCount (rebuildCountsFromSheet
      [⟨some "2024-06-09T04:00:00.000Z", some "A"⟩] 1718208000000).weekly "A" = 1 ∧
    lookupCount (rebuildCountsFromSheet
      [⟨some "2024-06-09T03:59:59.999Z", some "A"⟩] 1718208000000).weekly "A" = 0 ∧
    lookupCount (rebuildCountsFromSheet
      [⟨some "2024-06-09T03:59:59.999Z", some "A"⟩] 1718208000000).allTime "A" = 1 := by
  refine ⟨fun t => rfl, fun t => ?_, by decide, by decide, by decide⟩
  simp only [nowKeys, getNyWeekdayIndex, dayOrdWeekday]
  omega

/-- Claim C7: reset frame property.  For every aggregate state and every
bucket kind, resetBucket clears exactly that table to empty and leaves every
other table unchanged; in particular resetting Daily leaves Weekly, Monthly
and AllTime exactly as they were. -/
theorem resetBucket_frame (k k2 : BucketKind) (s : Tables) (h : k2 ≠ k) :
    tableOf k (resetBucket k s) = [] ∧
    tableOf k2 (resetBucket k s) = tableOf k2 s := by
  cases k <;> cases k2 <;>
    first
      | exact absurd rfl h
      | simp [resetBucket, tableOf]

theorem resetBucket_frame_witness :
    tableOf BucketKind.daily (resetBucket BucketKind.daily
      ⟨[("A", 1)], [("A", 2)], [("A", 3)], [("A", 4)]⟩) = [] ∧
    tableOf BucketKind.weekly (resetBucket BucketKind.daily
      ⟨[("A", 1)], [("A", 2)], [("A", 3)], [("A", 4)]⟩) =
      tableOf BucketKind.weekly ⟨[("A", 1)], [("A", 2)], [("A", 3)], [("A", 4)]⟩ :=
  resetBucket_frame BucketKind.daily BucketKind.weekly
    ⟨[("A", 1)], [("A", 2)], [("A", 3)], [("A", 4)]⟩ (by decide)

/-- Claim C10: trigger matching at the public interface.  An inbound webhook
message mutates the counters iff its sender_type is not "bot" and its text,
trimmed and lowercased, equals exactly "bill" (in which case every one of the
four tables is bumped for the sender name); "Bill", " BILL " and "bill" all
normalise to "bill", while "utility bill" and an absent text field do not;
non-matching messages leave all counter tables unchanged. -/
theorem trigger_matching (cfg ok : Bool) (m : Msg) (st : WebState)
    (u : String) (s : Tables) :
    (handleWebhook cfg ok m st).1.tables =
      (if m.sender_type ≠ "bot" ∧ normalizeText m.text = "bill"
        then incrementCount m.name st.tables else st.tables) ∧
    lookupCount (incrementCount u s).daily u = lookupCount s.daily u + 1 ∧
    lookupCount (incrementCount u s).weekly u = lookupCount s.weekly u + 1 ∧
    lookupCount (incrementCount u s).monthly u = lookupCount s.monthly u + 1 ∧
    lookupCount (incrementCount u s).allTime u = lookupCount s.allTime u + 1 ∧
    normalizeText (some "Bill") = "bill" ∧
    normalizeText (some " BILL ") = "bill" ∧
    normalizeText (some "bill") = "bill" ∧
    normalizeText (some "utility bill") ≠ "bill" ∧
    normalizeText none ≠ "bill" := by
  refine ⟨?_, by simp [incrementCount, lookupCount_bump],
    by simp [incrementCount, lookupCount_bump],
    by simp [incrementCount, lookupCount_bump],
    by simp [incrementCount, lookupCount_bump],
    by decide, by decide, by decide, by decide, by decide⟩
  by_cases hb : m.sender_type = "bot"
  · simp [handleWebhook, hb]
  · by_cases ht : normalizeText m.text = "!test8"
    · have hnb : ¬ normalizeText m.text = "bill" := by rw [ht]; decide
      simp [handleWebhook, hb, ht, hnb]
    · by_cases hm : normalizeText m.text = "bill" <;>
        simp [handleWebhook, hb, ht, hm]

/-- Claim C2, counterexample.  The claim states that a counter-mutating
request arriving before the first successful rebuild is rejected as a no-op.
The handler consults no readiness state: at the initial pre-rebuild state, a
"bill" message from a non-bot sender mutates the counter tables. -/
theorem readiness_gate_counterexample :
    (handleWebhook true true ⟨"user", some "bill", "A", "g"⟩
      initialState).1.tables ≠ initialState.tables := by
  decide

/-- Claim C2, amended.  There is no readiness gate: a counter-mutating
request arriving before the first rebuild is processed normally and bumps the
in-memory tables.  However, a rebuild computes its four tables from the log
and now alone and assigns them wholesale, so in-memory increments performed
before the first successful rebuild never affect or corrupt the eventual
rebuilt state. -/
theorem no_readiness_gate (cfg ok : Bool) (m : Msg) (st : WebState)
    (rows : List Row) (now : Int) :
    rebuildInto rows now (handleWebhook cfg ok m st).1.tables =
      rebuildInto rows now st.tables ∧
    (handleWebhook true true ⟨"user", some "bill", "A", "g"⟩
      initialState).1.tables = incrementCount "A" emptyTables := by
  exact ⟨by simp [rebuildInto_eq], by decide⟩

/-- Claim C3, counterexample.  The claim states that a failed append is
returned to the front of a pending queue and retried, so every accepted
event eventually reaches the log.  In the code a failed append is merely
caught: after accepting the event of user A with the append failing, the
resulting server state is exactly the counter increment with an unchanged
empty log — nothing is queued — and after a later successful append
opportunity (the event of user B) the log holds only the row of B; the row
of A never appears. -/
theorem write_buffer_counterexample :
    (handleWebhook true false ⟨"user", some "bill", "A", "g"⟩ initialState).1 =
      ⟨incrementCount "A" emptyTables, []⟩ ∧
    (handleWebhook true true ⟨"user", some "bill", "B", "g"⟩
      (handleWebhook true false ⟨"user", some "bill", "A", "g"⟩
        initialState).1).1.log = [("g", "B")] := by
  exact ⟨by decide, by decide⟩

/-- Claim C3, amended.  A failed append to the event log is never surfaced to
the original caller — every webhook request is acknowledged with 200 — but
there is no pending queue and no retry: a failed append leaves the log
unchanged and the event is permanently dropped from the log, so delivery is
at most once, not at least once. -/
theorem append_failure_drops_event (cfg ok : Bool) (m : Msg) (st : WebState)
    (g u : String) (log : List (String × String)) :
    (handleWebhook cfg ok m st).2 = 200 ∧
    logBillEvent cfg false log g u = log ∧
    (handleWebhook cfg false m st).1.log = st.log := by
  refine ⟨?_, by simp [logBillEvent], ?_⟩
  · by_cases hb : m.sender_type = "bot"
    · simp [handleWebhook, hb]
    · by_cases ht : normalizeText m.text = "!test8"
      · simp [handleWebhook, hb, ht]
      · by_cases hm : normalizeText m.text = "bill" <;>
          simp [handleWebhook, hb, ht, hm]
  · by_cases hb : m.sender_type = "bot"
    · simp [handleWebhook, hb]
    · by_cases ht : normalizeText m.text = "!test8"
      · simp [handleWebhook, hb, ht]
      · by_cases hm : normalizeText m.text = "bill" <;>
          simp [handleWebhook, hb, ht, hm, logBillEvent]

end BillBot
